import Mathlib

/-!
Verification of the JI7867 / CP966 PSSE contingency-testing scripts.

The development shallowly embeds the Python sources:
  * `src/optimisation/__init__.py` : `check_directory` and the `Logger` class
  * `src/Main.py`                  : `main` and the top-level driver loop
  * `src/optimisation/data_visualisation.py` : the plotting driver

Filesystem state, the PSSE engine and pandas DataFrames are modelled
explicitly; fallible code returns `Except`/`Option`.  Code that lives in
the repository modules `optimisation.psse`, `optimisation.constants` and
`optimisation.file_handling` is not present in the sources; where a claim
depends on it, the definition is modelled from the specification and says
so in its doc comment.
-/

namespace CP966

/-! ## Filesystem model and `check_directory` -/

/-- Abstract filesystem: the set of directories that exist, together with
an oracle saying whether `os.makedirs` would succeed on a given path
(permission errors make it fail). -/
structure FS where
  dirs : List String
  creatable : String → Bool
deriving Inhabited

/-- Model of `os.path.isdir` over the abstract filesystem. -/
def FS.isdir (fs : FS) (p : String) : Bool := fs.dirs.contains p

/-- Model of `os.makedirs`: succeeds and records the new directory exactly when the
oracle allows it, otherwise fails (raising `OSError`/`IOError`). -/
def FS.makedirs (fs : FS) (p : String) : Option FS :=
  if fs.creatable p then some { fs with dirs := fs.dirs ++ [p] } else none

/-- Model of `os.path.join` for the two-argument uses in the sources. -/
def joinPath (a b : String) : String := a ++ "/" ++ b

/-- Embedding of `check_directory` from `src/optimisation/__init__.py`; `scriptPth`
stands for `os.path.dirname(__file__)`.  Returns the updated filesystem and
the directory to use, or the `OSError` message. -/
def check_directory (fs : FS) (pth_to_check : String)
    (default_folder_name : String := "Logs") (scriptPth : String := "script") :
    Except String (FS × String) :=
  if fs.isdir pth_to_check then .ok (fs, pth_to_check)
  else
    match fs.makedirs pth_to_check with
    | some fs1 => .ok (fs1, pth_to_check)
    | none =>
      let fallback := joinPath scriptPth default_folder_name
      if fs.isdir fallback then .ok (fs, fallback)
      else
        match fs.makedirs fallback with
        | some fs1 => .ok (fs1, fallback)
        | none =>
          .error ("Unable to create directory <" ++ fallback ++ "> to store log files in")

/-! ## Logger counters -/

/-- The three per-level message counters initialised in `Logger.__init__`. -/
structure LoggerCounters where
  warning_count : Nat
  error_count : Nat
  critical_count : Nat
deriving Repr, DecidableEq

/-- Initial counters: `Logger.__init__` sets every counter to 0. -/
def loggerInit : LoggerCounters :=
  { warning_count := 0, error_count := 0, critical_count := 0 }

/-- The public methods of `Logger` that can be called on a live instance. -/
inductive LoggerCall where
  | debug (msg : String)
  | info (msg : String)
  | warning (msg : String)
  | err (msg : String)
  | critical (msg : String)
  | flush
  | close_logging
  | logging_final_report_and_closure
deriving Repr, DecidableEq

/-- Effect of each `Logger` method on the counters, transcribed from the
method bodies: only `critical` touches a counter (`warning` and `error`
have their increments commented out in the source). -/
def loggerStep (s : LoggerCounters) : LoggerCall → LoggerCounters
  | .critical _ => { s with critical_count := s.critical_count + 1 }
  | _ => s

/-- Counters after a sequence of method calls on a fresh `Logger`. -/
def loggerRun (calls : List LoggerCall) : LoggerCounters :=
  calls.foldl loggerStep loggerInit

/-- Number of `critical` calls in a call sequence. -/
def criticalCalls (calls : List LoggerCall) : Nat :=
  (calls.filter (fun c => match c with | .critical _ => true | _ => false)).length

/-- The closing report of `Logger.logging_final_report_and_closure`:
either the detailed per-level count message or the
`0 important messages` message, following the `> 1` test in the source. -/
def logging_final_report (s : LoggerCounters) : String :=
  if s.warning_count + s.error_count + s.critical_count > 1 then
    "Log file closing, there were the following number of important messages: " ++
      toString s.warning_count ++ " Warning Messages that may be of concern; " ++
      toString s.error_count ++ " Error Messages that may have stopped the results being produced; " ++
      toString s.critical_count ++ " Critical Messages"
  else
    "Log file closing, there were 0 important messages"

/-! ## Model of `src/Main.py`

The PSSE engine (`optimisation.psse`), the constants module and the Excel
helpers (`optimisation.file_handling`) are repository modules that are not
present under the sources; their behaviour, where a claim depends on it,
is modelled from the specification and marked as such below.  The network
state tracked here is the list of outages currently applied to the loaded
case; the base case is the empty list. -/

/-- Modelled from the spec: `constants.Contingency.bc`, the row label used
for the base case, from the missing `optimisation.constants` module. -/
def bcName : String := "Base Case"

/-- Modelled from the spec: `constants.Contingency.convergent`, the message
recorded for a convergent base case, from the missing constants module. -/
def convergentMsg : String := "Convergent"

/-- Modelled from the spec: the two voltage step-change limits
`constants.EirGridThresholds.cont_step_change_limit` and
`reactor_step_change_limit` from the missing constants module; the claims
only need that they are two distinct configured limits. -/
inductive StepLimit where
  | cont_step_change_limit
  | reactor_step_change_limit
deriving Repr, DecidableEq

/-- One contingency as grouped from the workbook, together with the outcome
the engine reports when it is tested from the base case: the
`voltage_control_contingency` classification of `psse.Contingency` and the
`convergence_message` / `convergent` attributes set by `test_contingency`. -/
structure ContingencyDef where
  voltage_control_contingency : Bool
  convergence_message : String
  convergent : Bool

/-- Inputs to one run of `main`: the SAV case, the base-case load-flow
outcome, the contingency names in workbook order, the per-name contingency
details, and oracles for the engine-side compliance checks. -/
structure MainInput where
  pthSav : String
  baseConvergent : Bool
  islanded_busbars : List Nat
  contingency_names : List String
  details : String → ContingencyDef
  bus_step_ok : String → StepLimit → Bool
  bus_ok : String → Bool
  circuit_ok : String → Bool
  tx2_ok : String → Bool
  tx3w_ok : String → Bool

/-- Model of `collections.OrderedDict` assignment `d[k] = v`: an existing key keeps
its position and gets the new value, a new key is appended at the end. -/
def odInsert {α : Type} (d : List (String × α)) (k : String) (v : α) :
    List (String × α) :=
  if (d.map Prod.fst).contains k then
    d.map (fun p => if p.1 = k then (k, v) else p)
  else d ++ [(k, v)]

/-- The `contingency_circuits_details` OrderedDict built by the first loop
of `main`: one entry per contingency name from the workbook. -/
def buildContingencyDict (inp : MainInput) : List (String × ContingencyDef) :=
  inp.contingency_names.foldl (fun d n => odInsert d n (inp.details n)) []

/-- First-occurrence key order of an OrderedDict built from a name list. -/
def odKeys (names : List String) : List String :=
  names.foldl (fun acc n => if acc.contains n then acc else acc ++ [n]) []

/-- A row of the `contingency_convergence` DataFrame: `none` is the NaN the
frame is created with, `some (message, convergent)` a populated row. -/
abbrev ConvRow := Option (String × Bool)

/-- pandas `df.loc[k] = v` for the convergence frame: an existing label is
updated in place, a missing label is appended at the end. -/
def dfLocSet (df : List (String × ConvRow)) (k : String) (v : String × Bool) :
    List (String × ConvRow) :=
  if (df.map Prod.fst).contains k then
    df.map (fun p => if p.1 = k then (k, some v) else p)
  else df ++ [(k, some v)]

/-- The `contingency_convergence` frame before the test loop: one NaN row per
OrderedDict key, then the base-case row written with `.loc`. -/
def initialConvFrame (keys : List String) : List (String × ConvRow) :=
  dfLocSet (keys.map (fun n => (n, (none : ConvRow)))) bcName (convergentMsg, true)

/-- The engine calls made for one contingency inside the test loop. -/
inductive Event where
  | setup (n : String)
  | test (n : String)
  | reload (n : String)
  | record (n : String)
deriving Repr, DecidableEq

/-- The four events of one loop iteration, in source order:
`setup_contingency`, `test_contingency`, `load_data_case`, then the
DataFrame update. -/
def contBlock (n : String) : List Event :=
  [Event.setup n, Event.test n, Event.reload n, Event.record n]

/-- Accumulator of the contingency test loop: the current network state
(outages applied), the two switching-class name lists, the convergence
frame, the network state each contingency was applied to, and the trace. -/
structure LoopState where
  net : List String
  circuit_switching : List String
  shunt_switching : List String
  conv : List (String × ConvRow)
  applied : List (String × List String)
  trace : List Event

/-- One iteration of the test loop in `main`.  The classification into
`shunt_switching` / `circuit_switching` comes first, then
`setup_contingency` (element selection, no network change),
`test_contingency` (modelled from the spec: applies the named outage to the
loaded case, solves, and records the convergence outcome on the
contingency object without raising), then `load_data_case` (modelled from
the spec: reloads the SAV case, returning the network to the base state),
and finally the convergence-frame update. -/
def contLoopBody (s : LoopState) (p : String × ContingencyDef) : LoopState :=
  let s1 :=
    if p.2.voltage_control_contingency then
      { s with shunt_switching := s.shunt_switching ++ [p.1] }
    else
      { s with circuit_switching := s.circuit_switching ++ [p.1] }
  let s2 := { s1 with trace := s1.trace ++ [Event.setup p.1] }
  let s3 := { s2 with
    applied := s2.applied ++ [(p.1, s2.net)],
    net := s2.net ++ [p.1],
    trace := s2.trace ++ [Event.test p.1] }
  let s4 := { s3 with net := [], trace := s3.trace ++ [Event.reload p.1] }
  { s4 with
    conv := dfLocSet s4.conv p.1 (p.2.convergence_message, p.2.convergent),
    trace := s4.trace ++ [Event.record p.1] }

/-- Modelled from the spec: `BusData.check_compliance` of the missing
`optimisation.psse` module returns one flag per requested contingency name
saying whether the voltage step change stayed within the given limit. -/
def busCheckCompliance (ok : String → StepLimit → Bool) (cont_names : List String)
    (voltage_step_limit : StepLimit) : List (String × Bool) :=
  cont_names.map (fun n => (n, ok n voltage_step_limit))

/-- Modelled from the spec: `check_compliance` of a results data set
(bus voltages, circuit loading, transformer loading) returns one flag per
requested contingency name saying whether that data set stayed within its
configured limits. -/
def dataCheckCompliance (ok : String → Bool) (cont_names : List String) :
    List (String × Bool) :=
  cont_names.map (fun n => (n, ok n))

/-- pandas `df.loc[k] = v` for a Boolean compliance frame. -/
def frameSetBool (df : List (String × Bool)) (k : String) (v : Bool) :
    List (String × Bool) :=
  if (df.map Prod.fst).contains k then
    df.map (fun p => if p.1 = k then (k, v) else p)
  else df ++ [(k, v)]

/-- The single combined summary passed to the export as `convergence`:
the convergence frame with every compliance column concatenated onto it. -/
structure Summary where
  convergence : List (String × ConvRow)
  step_change : List (String × Bool)
  datasets : List (List (String × Bool))

/-- The sheet name for steady voltages, `constants.Excel.voltage_steady`;
its value is evidenced by `data_visualisation.py`, which reads that sheet
of the exported workbook under this name. -/
def sheet_voltage_steady : String := "V Steady"

/-- Modelled from the spec: remaining sheet-name constants of the missing
`constants.Excel` class; the claims only need them as distinct sheet
labels in the order `main` inserts them. -/
def sheet_voltage_step : String := "V Step"

/-- Modelled from the spec: `constants.Excel.busbars`. -/
def sheet_busbars : String := "Busbars"

/-- Modelled from the spec: `constants.Excel.circuit_status`. -/
def sheet_circuit_status : String := "Circuit Status"

/-- Modelled from the spec: `constants.Excel.circuit_loading`. -/
def sheet_circuit_loading : String := "Circuit Loading"

/-- Modelled from the spec: `constants.Excel.tx2_status`. -/
def sheet_tx2_status : String := "Tx2 Status"

/-- Modelled from the spec: `constants.Excel.tx2_loading`. -/
def sheet_tx2_loading : String := "Tx2 Loading"

/-- Modelled from the spec: `constants.Excel.tx3`. -/
def sheet_tx3 : String := "Tx3"

/-- Modelled from the spec: `constants.Excel.tx3_wind_status`. -/
def sheet_tx3_wind_status : String := "Tx3 Wind Status"

/-- Modelled from the spec: `constants.Excel.tx3_wind_loading`. -/
def sheet_tx3_wind_loading : String := "Tx3 Wind Loading"

/-- Modelled from the spec: `constants.Excel.fixed_shunts`. -/
def sheet_fixed_shunts : String := "Fixed Shunts"

/-- Modelled from the spec: `constants.Excel.switched_shunts`. -/
def sheet_switched_shunts : String := "Switched Shunts"

/-- Modelled from the spec: `constants.Excel.machine_data`. -/
def sheet_machine_data : String := "Machine Data"

/-- Modelled from the spec: the sheet holding the convergence/compliance
summary written by `file_handling.ExportResults`. -/
def sheet_convergence : String := "Convergence"

/-- The `results_data` OrderedDict insertion order of `main`
(`src/Main.py` lines 181 to 194), which fixes the sheet order. -/
def results_data_sheets : List String :=
  [sheet_voltage_steady, sheet_voltage_step, sheet_busbars,
   sheet_circuit_status, sheet_circuit_loading,
   sheet_tx2_status, sheet_tx2_loading,
   sheet_tx3, sheet_tx3_wind_status, sheet_tx3_wind_loading,
   sheet_fixed_shunts, sheet_switched_shunts, sheet_machine_data]

/-- Modelled from the spec: `file_handling.ExportResults` writes one sheet
per entry of the results dictionary, in dictionary order, plus the
convergence/compliance summary sheet. -/
def exportSheets (resultsKeys : List String) : List String :=
  resultsKeys ++ [sheet_convergence]

/-- The two `ValueError` conditions `main` can raise on the base case. -/
inductive MainFailure where
  | islandedBusbars
  | nonConvergentBase
deriving Repr, DecidableEq

/-- What a successful run of `main` produces. -/
structure MainResult where
  circuit_switching : List String
  shunt_switching : List String
  applied : List (String × List String)
  contingency_compliance : Summary
  results_sheets : List String
  target : String

/-- Embedding of `main` from `src/Main.py`: the base-case convergence and islanding
checks, the contingency test loop, the compliance evaluation and the
export.  Returns the event trace of the contingency loop together with
either the raised `ValueError` or the run result. -/
def mainRun (inp : MainInput) (target_workbook : String) :
    List Event × Except MainFailure MainResult :=
  if inp.baseConvergent = false ∨ inp.islanded_busbars.isEmpty = false then
    if inp.islanded_busbars.isEmpty = false then
      ([], .error .islandedBusbars)
    else
      ([], .error .nonConvergentBase)
  else
    let dict := buildContingencyDict inp
    let keys := dict.map Prod.fst
    let s0 : LoopState :=
      { net := [], circuit_switching := [], shunt_switching := [],
        conv := initialConvFrame keys, applied := [], trace := [] }
    let s := dict.foldl contLoopBody s0
    let df_cont_step :=
      busCheckCompliance inp.bus_step_ok s.circuit_switching .cont_step_change_limit
    let df_reactor_step :=
      busCheckCompliance inp.bus_step_ok s.shunt_switching .reactor_step_change_limit
    let df_step := frameSetBool (df_cont_step ++ df_reactor_step) bcName true
    let all_cont_names := bcName :: (s.circuit_switching ++ s.shunt_switching)
    let ds :=
      [dataCheckCompliance inp.bus_ok all_cont_names,
       dataCheckCompliance inp.circuit_ok all_cont_names,
       dataCheckCompliance inp.tx2_ok all_cont_names,
       dataCheckCompliance inp.tx3w_ok all_cont_names]
    (s.trace, .ok
      { circuit_switching := s.circuit_switching,
        shunt_switching := s.shunt_switching,
        applied := s.applied,
        contingency_compliance :=
          { convergence := s.conv, step_change := df_step, datasets := ds },
        results_sheets := exportSheets results_data_sheets,
        target := target_workbook })

/-- The log messages of the top-level driver (the `__main__` block). -/
inductive DriverLog where
  | processing (sav : String)
  | completed (sav : String) (res : String)
  | failed (sav : String)
deriving Repr, DecidableEq

/-- One iteration of the driver loop: announce the SAV case, run `main`
inside `try`, log completion on success and log the error on
`ValueError`. -/
def driverStep (runCase : String → String → Except MainFailure MainResult)
    (log : List DriverLog) (sr : String × String) : List DriverLog :=
  log ++ [DriverLog.processing sr.1] ++
    (match runCase sr.1 sr.2 with
     | .ok _ => [DriverLog.completed sr.1 sr.2]
     | .error _ => [DriverLog.failed sr.1])

/-- The driver loop over the selected (SAV case, results path) pairs. -/
def driverRun (runCase : String → String → Except MainFailure MainResult)
    (cases : List (String × String)) : List DriverLog :=
  cases.foldl (driverStep runCase) []

/-! ## Model of `src/optimisation/data_visualisation.py` -/

/-- Index of the last character satisfying `p`, if any. -/
def rfindIdx (l : List Char) (p : Char → Bool) : Option Nat :=
  match l.reverse.findIdx? p with
  | none => none
  | some i => some (l.length - 1 - i)

/-- Model of `os.path.splitext`: splits off the extension at the last dot of the
final path component, treating a name consisting only of leading dots as
having no extension (the CPython `genericpath._splitext` algorithm with
the Windows separators). -/
def splitext (path : String) : String × String :=
  let l := path.toList
  match rfindIdx l (fun c => c == '.') with
  | none => (path, "")
  | some dotIdx =>
    let filenameStart :=
      match rfindIdx l (fun c => c == '/' || c == '\\') with
      | none => 0
      | some i => i + 1
    if filenameStart ≤ dotIdx ∧
        ((l.drop filenameStart).take (dotIdx - filenameStart)).any (fun c => c ≠ '.') then
      (⟨l.take dotIdx⟩, ⟨l.drop dotIdx⟩)
    else (path, "")

/-- The figure path computed at the top of `produce_plots_voltage`:
the source file name without its extension, with `_Voltage.png`
appended. -/
def produce_plots_voltage_figname (source_file : String) : String :=
  (splitext source_file).1 ++ "_Voltage.png"

/-- Observable outcome of the visualisation driver for one selected file:
either a plot saved under the computed PNG name, or the printed skip
message for a file that does not exist. -/
inductive VisAction where
  | savedPlot (png : String)
  | skipped (msg : String)
deriving Repr, DecidableEq

/-- The `__main__` loop of `data_visualisation.py`: for each selected
results file, produce and save the voltage plot when the file exists,
otherwise print the does-not-exist message and move on. -/
def visDriver (existsFile : String → Bool) (files : List String) :
    List VisAction :=
  files.map (fun f =>
    if existsFile f then
      VisAction.savedPlot (produce_plots_voltage_figname f)
    else
      VisAction.skipped ("File <" ++ f ++ "> does not exist"))

/-! ## Derived closed forms used in theorem statements

These are not new behaviour: each is proved equal to the corresponding
part of `mainRun` below. -/

/-- The contingency OrderedDict entries in key order. -/
def mainEntries (inp : MainInput) : List (String × ContingencyDef) :=
  (odKeys inp.contingency_names).map (fun n => (n, inp.details n))

/-- The `circuit_switching` list accumulated by the test loop. -/
def mainCircuitSwitching (inp : MainInput) : List String :=
  ((mainEntries inp).filter (fun p => !p.2.voltage_control_contingency)).map Prod.fst

/-- The `shunt_switching` list accumulated by the test loop. -/
def mainShuntSwitching (inp : MainInput) : List String :=
  ((mainEntries inp).filter (fun p => p.2.voltage_control_contingency)).map Prod.fst

/-- The `contingency_convergence` frame after the test loop. -/
def mainConvergenceFrame (inp : MainInput) : List (String × ConvRow) :=
  (mainEntries inp).foldl
    (fun df p => dfLocSet df p.1 (p.2.convergence_message, p.2.convergent))
    (initialConvFrame (odKeys inp.contingency_names))

/-- The `all_cont_names` list: the base case followed by every contingency name. -/
def mainAllContNames (inp : MainInput) : List String :=
  bcName :: (mainCircuitSwitching inp ++ mainShuntSwitching inp)

/-! ## Concrete inputs used by the witness theorems -/

/-- A run whose base case reports an islanded busbar. -/
def inpW1 : MainInput :=
  { pthSav := "case.sav", baseConvergent := true, islanded_busbars := [101],
    contingency_names := ["N-1 A"],
    details := fun _ =>
      { voltage_control_contingency := false,
        convergence_message := "Convergent", convergent := true },
    bus_step_ok := fun _ _ => true, bus_ok := fun _ => true,
    circuit_ok := fun _ => true, tx2_ok := fun _ => true,
    tx3w_ok := fun _ => true }

/-- A healthy run with one circuit-switching contingency that fails to
converge and one convergent shunt-switching contingency. -/
def inpW2 : MainInput :=
  { pthSav := "case.sav", baseConvergent := true, islanded_busbars := [],
    contingency_names := ["Circuit A", "Reactor B"],
    details := fun n =>
      if n = "Reactor B" then
        { voltage_control_contingency := true,
          convergence_message := "Convergent", convergent := true }
      else
        { voltage_control_contingency := false,
          convergence_message := "Non-Convergent", convergent := false },
    bus_step_ok := fun _ _ => true, bus_ok := fun _ => true,
    circuit_ok := fun _ => true, tx2_ok := fun _ => true,
    tx3w_ok := fun _ => true }

/-- A run-case function for the driver witnesses that always raises. -/
def rcW : String → String → Except MainFailure MainResult :=
  fun _ _ => Except.error MainFailure.nonConvergentBase

/-! ## Logger counter lemmas -/

theorem criticalCalls_cons_critical (m : String) (cs : List LoggerCall) :
    criticalCalls (LoggerCall.critical m :: cs) = criticalCalls cs + 1 := by
  simp [criticalCalls, List.filter_cons]

theorem criticalCalls_cons_other (c : LoggerCall) (cs : List LoggerCall)
    (h : ∀ m, c ≠ LoggerCall.critical m) :
    criticalCalls (c :: cs) = criticalCalls cs := by
  cases c with
  | critical m => exact absurd rfl (h m)
  | _ => simp [criticalCalls, List.filter_cons]

theorem loggerStep_other (s : LoggerCounters) (c : LoggerCall)
    (h : ∀ m, c ≠ LoggerCall.critical m) : loggerStep s c = s := by
  cases c with
  | critical m => exact absurd rfl (h m)
  | _ => rfl

theorem loggerFoldl_counts (calls : List LoggerCall) : ∀ s : LoggerCounters,
    (calls.foldl loggerStep s).warning_count = s.warning_count ∧
    (calls.foldl loggerStep s).error_count = s.error_count ∧
    (calls.foldl loggerStep s).critical_count = s.critical_count + criticalCalls calls := by
  induction calls with
  | nil => intro s; simp [criticalCalls]
  | cons c cs ih =>
    intro s
    cases c with
    | critical m =>
      have := ih { s with critical_count := s.critical_count + 1 }
      simpa [List.foldl_cons, loggerStep, criticalCalls_cons_critical, Nat.add_assoc,
        Nat.add_comm 1] using this
    | debug m =>
      simpa [List.foldl_cons, loggerStep, criticalCalls, List.filter_cons] using ih s
    | info m =>
      simpa [List.foldl_cons, loggerStep, criticalCalls, List.filter_cons] using ih s
    | warning m =>
      simpa [List.foldl_cons, loggerStep, criticalCalls, List.filter_cons] using ih s
    | err m =>
      simpa [List.foldl_cons, loggerStep, criticalCalls, List.filter_cons] using ih s
    | flush =>
      simpa [List.foldl_cons, loggerStep, criticalCalls, List.filter_cons] using ih s
    | close_logging =>
      simpa [List.foldl_cons, loggerStep, criticalCalls, List.filter_cons] using ih s
    | logging_final_report_and_closure =>
      simpa [List.foldl_cons, loggerStep, criticalCalls, List.filter_cons] using ih s

/-- C9: over any call sequence on a fresh `Logger`, `warning_count` and
`error_count` stay 0 for the whole lifetime, `critical_count` equals the
number of `critical` calls, `critical` bumps it by exactly one, and no
method other than `critical` changes the counters. -/
theorem c9_logger_counter_invariants (calls : List LoggerCall) :
    (loggerRun calls).warning_count = 0 ∧
    (loggerRun calls).error_count = 0 ∧
    (loggerRun calls).critical_count = criticalCalls calls ∧
    (∀ s m, (loggerStep s (LoggerCall.critical m)).critical_count =
      s.critical_count + 1) ∧
    (∀ s c, (∀ m, c ≠ LoggerCall.critical m) → loggerStep s c = s) := by
  obtain ⟨h1, h2, h3⟩ := loggerFoldl_counts calls loggerInit
  refine ⟨?_, ?_, ?_, fun s m => rfl, fun s c h => loggerStep_other s c h⟩
  · simpa [loggerRun, loggerInit] using h1
  · simpa [loggerRun, loggerInit] using h2
  · simpa [loggerRun, loggerInit] using h3

/-- Witness for C9 at a concrete call sequence. -/
theorem c9_logger_counter_invariants_witness :
    (loggerRun [LoggerCall.warning "w", LoggerCall.err "e",
      LoggerCall.critical "c", LoggerCall.info "i",
      LoggerCall.critical "c2"]).warning_count = 0 ∧
    (loggerRun [LoggerCall.warning "w", LoggerCall.err "e",
      LoggerCall.critical "c", LoggerCall.info "i",
      LoggerCall.critical "c2"]).critical_count = 2 :=
  ⟨(c9_logger_counter_invariants _).1,
    (c9_logger_counter_invariants [LoggerCall.warning "w", LoggerCall.err "e",
      LoggerCall.critical "c", LoggerCall.info "i",
      LoggerCall.critical "c2"]).2.2.1.trans (by decide)⟩

/-- C10: the closing report prints the per-level counts only when the sum
of the three counters exceeds 1; at a sum of exactly 1 it reports 0
important messages instead. -/
theorem c10_final_report_threshold (s : LoggerCounters) :
    (s.warning_count + s.error_count + s.critical_count > 1 →
      logging_final_report s =
        "Log file closing, there were the following number of important messages: " ++
          toString s.warning_count ++ " Warning Messages that may be of concern; " ++
          toString s.error_count ++
          " Error Messages that may have stopped the results being produced; " ++
          toString s.critical_count ++ " Critical Messages") ∧
    (s.warning_count + s.error_count + s.critical_count = 1 →
      logging_final_report s = "Log file closing, there were 0 important messages") := by
  constructor
  · intro h
    simp [logging_final_report, h]
  · intro h
    have h2 : ¬ s.warning_count + s.error_count + s.critical_count > 1 := by omega
    simp [logging_final_report, h2]

/-- Witness for C10: after exactly one critical message the report claims
0 important messages. -/
theorem c10_final_report_threshold_witness :
    logging_final_report
        { warning_count := 0, error_count := 0, critical_count := 1 } =
      "Log file closing, there were 0 important messages" :=
  (c10_final_report_threshold
    { warning_count := 0, error_count := 0, critical_count := 1 }).2 rfl

/-! ## `check_directory` contract -/

/-- C8: `check_directory` always hands back an existing directory — the
given path when it exists or can be created, else the default folder under
the package directory; it raises `OSError` only when neither the given
path nor the fallback can be created, and it leaves the filesystem
untouched when the given path already exists. -/
theorem c8_check_directory_contract (fs : FS) (pth d s : String) :
    (∀ fs2 p, check_directory fs pth d s = .ok (fs2, p) → fs2.isdir p = true) ∧
    (fs.isdir pth = true → check_directory fs pth d s = .ok (fs, pth)) ∧
    (fs.isdir pth = false → fs.creatable pth = true →
      check_directory fs pth d s =
        .ok ({ fs with dirs := fs.dirs ++ [pth] }, pth)) ∧
    (∀ fs2 p, check_directory fs pth d s = .ok (fs2, p) →
      p = pth ∨ p = joinPath s d) ∧
    (fs.isdir pth = false → fs.creatable pth = false →
      ∀ fs2 p, check_directory fs pth d s = .ok (fs2, p) → p = joinPath s d) ∧
    (∀ e, check_directory fs pth d s = .error e →
      fs.isdir pth = false ∧ fs.creatable pth = false ∧
      fs.isdir (joinPath s d) = false ∧ fs.creatable (joinPath s d) = false) := by
  by_cases h1 : fs.isdir pth
  · refine ⟨?_, ?_, ?_, ?_, ?_, ?_⟩ <;>
      simp_all [check_directory, FS.isdir]
  · by_cases h2 : fs.creatable pth
    · refine ⟨?_, ?_, ?_, ?_, ?_, ?_⟩ <;>
        simp_all [check_directory, FS.makedirs, FS.isdir]
    · by_cases h3 : fs.isdir (joinPath s d)
      · refine ⟨?_, ?_, ?_, ?_, ?_, ?_⟩ <;>
          simp_all [check_directory, FS.makedirs, FS.isdir]
      · by_cases h4 : fs.creatable (joinPath s d)
        · refine ⟨?_, ?_, ?_, ?_, ?_, ?_⟩ <;>
            simp_all [check_directory, FS.makedirs, FS.isdir]
        · refine ⟨?_, ?_, ?_, ?_, ?_, ?_⟩ <;>
            simp_all [check_directory, FS.makedirs, FS.isdir]

/-- Witness for C8: an already existing directory is returned unchanged. -/
theorem c8_check_directory_contract_witness :
    check_directory
        { dirs := ["existing"], creatable := fun _ => false } "existing" "Logs" "pkg" =
      .ok ({ dirs := ["existing"], creatable := fun _ => false }, "existing") :=
  (c8_check_directory_contract
    { dirs := ["existing"], creatable := fun _ => false } "existing" "Logs" "pkg").2.1 rfl

/-! ## Visualisation driver -/

/-- C7: each selected results file that exists yields exactly one saved
plot whose PNG path is the file stem with `_Voltage.png` appended, and a
selected file that does not exist yields only the printed skip message;
the composition is shown at a concrete results-file name. -/
theorem c7_visualisation_driver (existsFile : String → Bool) (files : List String) :
    visDriver existsFile files =
      files.map (fun f =>
        if existsFile f then
          VisAction.savedPlot ((splitext f).1 ++ "_Voltage.png")
        else VisAction.skipped ("File <" ++ f ++ "> does not exist")) ∧
    produce_plots_voltage_figname "Results_WPHW(CP966).xlsx" =
      "Results_WPHW(CP966)_Voltage.png" := by
  exact ⟨rfl, by decide⟩

/-! ## OrderedDict lemmas -/

theorem odInsert_of_keys_map {α : Type} (acc : List String) (f : String → α) (n : String) :
    odInsert (acc.map (fun k => (k, f k))) n (f n) =
      (if acc.contains n then acc else acc ++ [n]).map (fun k => (k, f k)) := by
  have hmap : (acc.map (fun k => (k, f k))).map Prod.fst = acc := by
    rw [List.map_map]
    exact (List.map_congr_left (fun k _ => rfl)).trans (List.map_id acc)
  rw [odInsert, hmap]
  by_cases h : acc.contains n = true
  · rw [if_pos h, if_pos h, List.map_map]
    refine List.map_congr_left ?_
    intro k _
    by_cases hk : k = n
    · subst hk; simp [Function.comp]
    · simp [Function.comp, hk]
  · rw [if_neg h, if_neg h, List.map_append]
    rfl

theorem buildDict_general (names : List String) (f : String → ContingencyDef) :
    ∀ acc : List String,
      names.foldl (fun d n => odInsert d n (f n)) (acc.map (fun k => (k, f k))) =
        (names.foldl (fun a n => if a.contains n then a else a ++ [n]) acc).map
          (fun k => (k, f k)) := by
  induction names with
  | nil => intro acc; rfl
  | cons n ns ih =>
    intro acc
    simp only [List.foldl_cons]
    rw [odInsert_of_keys_map acc f n, ih]

/-- The contingency OrderedDict is exactly the first-occurrence key order
paired with the per-name details. -/
theorem buildContingencyDict_eq (inp : MainInput) :
    buildContingencyDict inp =
      (odKeys inp.contingency_names).map (fun n => (n, inp.details n)) := by
  simpa [buildContingencyDict, odKeys] using
    buildDict_general inp.contingency_names inp.details []

theorem odKeys_general_mem (names : List String) (a : String) :
    ∀ acc : List String,
      (a ∈ names.foldl (fun ac n => if ac.contains n then ac else ac ++ [n]) acc ↔
        a ∈ acc ∨ a ∈ names) := by
  induction names with
  | nil => intro acc; simp
  | cons n ns ih =>
    intro acc
    rw [List.foldl_cons]
    by_cases h : acc.contains n = true
    · have hn : n ∈ acc := List.elem_iff.1 h
      rw [if_pos h, ih acc]
      simp only [List.mem_cons]
      constructor
      · rintro (ha | ha)
        · exact Or.inl ha
        · exact Or.inr (Or.inr ha)
      · rintro (ha | rfl | ha)
        · exact Or.inl ha
        · exact Or.inl hn
        · exact Or.inr ha
    · rw [if_neg h, ih (acc ++ [n])]
      simp only [List.mem_append, List.mem_singleton, List.mem_cons]
      tauto

/-- Membership in the OrderedDict keys coincides with membership in the
workbook name list. -/
theorem mem_odKeys (names : List String) (a : String) :
    a ∈ odKeys names ↔ a ∈ names := by
  simpa [odKeys] using odKeys_general_mem names a []

theorem odKeys_general_nodup (names : List String) :
    ∀ acc : List String, acc.Nodup →
      (names.foldl (fun ac n => if ac.contains n then ac else ac ++ [n]) acc).Nodup := by
  induction names with
  | nil => intro acc h; simpa using h
  | cons n ns ih =>
    intro acc h
    rw [List.foldl_cons]
    by_cases hc : acc.contains n = true
    · rw [if_pos hc]
      exact ih acc h
    · have hn : n ∉ acc := fun hmem => hc (List.elem_iff.2 hmem)
      have h2 : (acc ++ [n]).Nodup := by
        simp [List.nodup_append, h, hn]
      rw [if_neg hc]
      exact ih (acc ++ [n]) h2

/-- OrderedDict keys are distinct. -/
theorem odKeys_nodup (names : List String) : (odKeys names).Nodup := by
  simpa [odKeys] using odKeys_general_nodup names [] List.nodup_nil

/-! ## Closed form of the contingency test loop -/

theorem contLoop_foldl (entries : List (String × ContingencyDef)) :
    ∀ s : LoopState, s.net = [] →
      entries.foldl contLoopBody s =
        { net := [],
          circuit_switching := s.circuit_switching ++
            ((entries.filter (fun p => !p.2.voltage_control_contingency)).map Prod.fst),
          shunt_switching := s.shunt_switching ++
            ((entries.filter (fun p => p.2.voltage_control_contingency)).map Prod.fst),
          conv := entries.foldl
            (fun df p => dfLocSet df p.1 (p.2.convergence_message, p.2.convergent)) s.conv,
          applied := s.applied ++ entries.map (fun p => (p.1, ([] : List String))),
          trace := s.trace ++ (entries.map (fun p => contBlock p.1)).flatten } := by
  induction entries with
  | nil =>
    intro s h
    obtain ⟨net, cs, ss, cv, ap, tr⟩ := s
    simp only at h
    subst h
    simp
  | cons e rest ih =>
    intro s h
    rw [List.foldl_cons]
    have hnet : (contLoopBody s e).net = [] := by
      by_cases hvc : e.2.voltage_control_contingency = true <;>
        simp [contLoopBody, hvc]
    rw [ih (contLoopBody s e) hnet]
    by_cases hvc : e.2.voltage_control_contingency = true <;>
      simp [contLoopBody, hvc, h, List.filter_cons, List.foldl_cons, contBlock,
        List.append_assoc]

/-! ## Evaluation of `mainRun` when the base case is healthy -/

theorem mainEntries_keys (inp : MainInput) :
    (mainEntries inp).map Prod.fst = odKeys inp.contingency_names := by
  rw [mainEntries, List.map_map]
  exact (List.map_congr_left fun k _ => rfl).trans (List.map_id _)

theorem mainRun_ok_closed (inp : MainInput) (tw : String)
    (hbase : inp.baseConvergent = true) (hisl : inp.islanded_busbars = []) :
    mainRun inp tw =
      (((mainEntries inp).map (fun p => contBlock p.1)).flatten,
       Except.ok
        { circuit_switching := mainCircuitSwitching inp,
          shunt_switching := mainShuntSwitching inp,
          applied := (mainEntries inp).map (fun p => (p.1, ([] : List String))),
          contingency_compliance :=
            { convergence := mainConvergenceFrame inp,
              step_change :=
                frameSetBool
                  (busCheckCompliance inp.bus_step_ok (mainCircuitSwitching inp)
                      StepLimit.cont_step_change_limit ++
                    busCheckCompliance inp.bus_step_ok (mainShuntSwitching inp)
                      StepLimit.reactor_step_change_limit) bcName true,
              datasets :=
                [dataCheckCompliance inp.bus_ok (mainAllContNames inp),
                 dataCheckCompliance inp.circuit_ok (mainAllContNames inp),
                 dataCheckCompliance inp.tx2_ok (mainAllContNames inp),
                 dataCheckCompliance inp.tx3w_ok (mainAllContNames inp)] },
          results_sheets := exportSheets results_data_sheets,
          target := tw }) := by
  have hcond : ¬ (inp.baseConvergent = false ∨ inp.islanded_busbars.isEmpty = false) := by
    simp [hbase, hisl]
  have hkeys :
      ((odKeys inp.contingency_names).map (fun n => (n, inp.details n))).map Prod.fst =
        odKeys inp.contingency_names := mainEntries_keys inp
  have hfold := contLoop_foldl
    ((odKeys inp.contingency_names).map (fun n => (n, inp.details n)))
    { net := [], circuit_switching := [], shunt_switching := [],
      conv := initialConvFrame (odKeys inp.contingency_names),
      applied := [], trace := [] } rfl
  unfold mainRun
  rw [if_neg hcond, buildContingencyDict_eq]
  simp only [hkeys]
  rw [hfold]
  simp only [mainEntries, mainCircuitSwitching, mainShuntSwitching,
    mainConvergenceFrame, mainAllContNames, List.nil_append]

/-! ## Convergence-frame row lemmas -/

theorem dfLocSet_mem_self (df : List (String × ConvRow)) (k : String) (v : String × Bool) :
    (k, some v) ∈ dfLocSet df k v := by
  rw [dfLocSet]
  by_cases h : (df.map Prod.fst).contains k = true
  · rw [if_pos h]
    have hk : k ∈ df.map Prod.fst := List.elem_iff.1 h
    obtain ⟨p, hp, hpk⟩ := List.mem_map.1 hk
    refine List.mem_map.2 ⟨p, hp, ?_⟩
    simp [hpk]
  · rw [if_neg h]
    exact List.mem_append.2 (Or.inr (List.mem_singleton.2 rfl))

theorem dfLocSet_mem_other (df : List (String × ConvRow)) (k k2 : String)
    (r : ConvRow) (v : String × Bool) (hne : k ≠ k2) (h : (k, r) ∈ df) :
    (k, r) ∈ dfLocSet df k2 v := by
  rw [dfLocSet]
  by_cases hc : (df.map Prod.fst).contains k2 = true
  · rw [if_pos hc]
    refine List.mem_map.2 ⟨(k, r), h, ?_⟩
    simp [hne]
  · rw [if_neg hc]
    exact List.mem_append.2 (Or.inl h)

theorem convFold_preserve (entries : List (String × ContingencyDef)) :
    ∀ (df : List (String × ConvRow)) (k : String) (r : ConvRow),
      (k, r) ∈ df → (∀ p ∈ entries, p.1 ≠ k) →
      (k, r) ∈ entries.foldl
        (fun df p => dfLocSet df p.1 (p.2.convergence_message, p.2.convergent)) df := by
  induction entries with
  | nil =>
    intro df k r h _
    simpa using h
  | cons e rest ih =>
    intro df k r h hne
    rw [List.foldl_cons]
    refine ih _ k r ?_ (fun p hp => hne p (List.mem_cons_of_mem e hp))
    exact dfLocSet_mem_other df k e.1 r _
      (fun hk => (hne e (List.mem_cons_self e rest)) hk.symm) h

theorem convFold_mem (entries : List (String × ContingencyDef)) :
    ∀ df : List (String × ConvRow), ((entries.map Prod.fst).Nodup) →
      ∀ p ∈ entries,
        (p.1, some (p.2.convergence_message, p.2.convergent)) ∈
          entries.foldl
            (fun df q => dfLocSet df q.1 (q.2.convergence_message, q.2.convergent)) df := by
  induction entries with
  | nil =>
    intro df _ p hp
    simp at hp
  | cons e rest ih =>
    intro df hnd p hp
    have hnd2 : (e.1 ∉ rest.map Prod.fst) ∧ (rest.map Prod.fst).Nodup := by
      rw [List.map_cons] at hnd
      exact List.nodup_cons.1 hnd
    rw [List.foldl_cons]
    rcases List.mem_cons.1 hp with rfl | hp2
    · refine convFold_preserve rest _ p.1 _ (dfLocSet_mem_self df p.1 _) ?_
      intro q hq hqe
      exact hnd2.1 (hqe ▸ List.mem_map_of_mem Prod.fst hq)
    · exact ih _ hnd2.2 p hp2

/-! ## Driver log lemmas -/

theorem driverStep_shift (rc : String → String → Except MainFailure MainResult)
    (log : List DriverLog) (sr : String × String) :
    driverStep rc log sr = log ++ driverStep rc [] sr := by
  rw [driverStep, driverStep]
  cases rc sr.1 sr.2 <;> simp

theorem driverRun_shift (rc : String → String → Except MainFailure MainResult)
    (cs0 : List (String × String)) :
    ∀ log, cs0.foldl (driverStep rc) log = log ++ driverRun rc cs0 := by
  induction cs0 with
  | nil =>
    intro log
    simp [driverRun]
  | cons c cs ih =>
    intro log
    rw [List.foldl_cons, ih (driverStep rc log c)]
    have h2 : driverRun rc (c :: cs) = driverStep rc [] c ++ driverRun rc cs := by
      rw [driverRun, List.foldl_cons, ih (driverStep rc [] c)]
    rw [h2, driverStep_shift rc log c, List.append_assoc]

theorem driverRun_append (rc : String → String → Except MainFailure MainResult)
    (l1 l2 : List (String × String)) :
    driverRun rc (l1 ++ l2) = driverRun rc l1 ++ driverRun rc l2 := by
  rw [driverRun, List.foldl_append, driverRun_shift]
  rfl

/-! ## Claim theorems for `Main.py` -/

/-- C1: a non-convergent or islanded base case makes `main` raise a
`ValueError` before any contingency is tested (the loop trace is empty),
with the islanded-busbar error taking precedence when both conditions
hold; the top-level driver catches the `ValueError` raised for a SAV
case, logs the failure, and continues with the remaining selected
cases. -/
theorem c1_base_case_abort (inp : MainInput) (tw : String)
    (rc : String → String → Except MainFailure MainResult)
    (pre post : List (String × String)) (sav res : String) (e : MainFailure)
    (hbase : inp.baseConvergent = false ∨ inp.islanded_busbars ≠ [])
    (hrc : rc sav res = Except.error e) :
    (mainRun inp tw).1 = [] ∧
    (mainRun inp tw).2 =
      Except.error (if inp.islanded_busbars.isEmpty then
        MainFailure.nonConvergentBase else MainFailure.islandedBusbars) ∧
    (inp.islanded_busbars ≠ [] →
      (mainRun inp tw).2 = Except.error MainFailure.islandedBusbars) ∧
    driverRun rc (pre ++ (sav, res) :: post) =
      driverRun rc pre ++
        [DriverLog.processing sav, DriverLog.failed sav] ++ driverRun rc post := by
  have hcond : inp.baseConvergent = false ∨ inp.islanded_busbars.isEmpty = false := by
    rcases hbase with h | h
    · exact Or.inl h
    · exact Or.inr (by simpa [List.isEmpty_iff] using h)
  have hmain : mainRun inp tw =
      ([], Except.error (if inp.islanded_busbars.isEmpty then
        MainFailure.nonConvergentBase else MainFailure.islandedBusbars)) := by
    rw [mainRun, if_pos hcond]
    by_cases hi : inp.islanded_busbars.isEmpty = true
    · have h1 : ¬ inp.islanded_busbars.isEmpty = false := by simp [hi]
      rw [if_neg h1, if_pos hi]
    · have h1 : inp.islanded_busbars.isEmpty = false := by
        simpa using hi
      rw [if_pos h1, if_neg hi]
  refine ⟨by rw [hmain], by rw [hmain], ?_, ?_⟩
  · intro hi
    have h1 : inp.islanded_busbars.isEmpty = false := by
      simpa [List.isEmpty_iff] using hi
    rw [hmain, h1]
    simp
  · have hsplit : pre ++ (sav, res) :: post = pre ++ ([(sav, res)] ++ post) := rfl
    have hmid : driverRun rc [(sav, res)] =
        [DriverLog.processing sav, DriverLog.failed sav] := by
      simp [driverRun, driverStep, hrc]
    rw [hsplit, driverRun_append, driverRun_append, hmid, List.append_assoc]

/-- Witness for C1 at a concrete islanded case and driver schedule. -/
theorem c1_base_case_abort_witness :
    (mainRun inpW1 "t").1 = [] ∧
    (mainRun inpW1 "t").2 =
      Except.error (if inpW1.islanded_busbars.isEmpty then
        MainFailure.nonConvergentBase else MainFailure.islandedBusbars) ∧
    (inpW1.islanded_busbars ≠ [] →
      (mainRun inpW1 "t").2 = Except.error MainFailure.islandedBusbars) ∧
    driverRun rcW ([("a", "ra")] ++ ("s", "rs") :: [("c", "rco")]) =
      driverRun rcW [("a", "ra")] ++
        [DriverLog.processing "s", DriverLog.failed "s"] ++
        driverRun rcW [("c", "rco")] :=
  c1_base_case_abort inpW1 "t" rcW [("a", "ra")] [("c", "rco")] "s" "rs"
    MainFailure.nonConvergentBase (Or.inr (by simp [inpW1])) rfl

/-- C2: with a healthy base case the whole contingency batch completes
(the run returns a result instead of raising), and the convergence frame
holds, for every contingency name of the workbook, a row with that
contingency recorded message and convergent flag — with no assumption on
whether any contingency converged. -/
theorem c2_per_contingency_convergence_rows (inp : MainInput) (tw : String)
    (hbase : inp.baseConvergent = true) (hisl : inp.islanded_busbars = []) :
    ∃ r : MainResult, (mainRun inp tw).2 = Except.ok r ∧
      ∀ n ∈ inp.contingency_names,
        (n, some ((inp.details n).convergence_message, (inp.details n).convergent)) ∈
          r.contingency_compliance.convergence := by
  refine ⟨_, by rw [mainRun_ok_closed inp tw hbase hisl], ?_⟩
  intro n hn
  have hkmem : n ∈ odKeys inp.contingency_names := (mem_odKeys _ n).2 hn
  have hpmem : (n, inp.details n) ∈ mainEntries inp :=
    List.mem_map_of_mem (fun n => (n, inp.details n)) hkmem
  have hnd : ((mainEntries inp).map Prod.fst).Nodup := by
    rw [mainEntries_keys]
    exact odKeys_nodup _
  have hrow := convFold_mem (mainEntries inp)
    (initialConvFrame (odKeys inp.contingency_names)) hnd (n, inp.details n) hpmem
  simpa [mainConvergenceFrame] using hrow

/-- Witness for C2: a batch containing a non-convergent contingency still
completes with a row for every contingency. -/
theorem c2_per_contingency_convergence_rows_witness :
    ∃ r : MainResult, (mainRun inpW2 "t").2 = Except.ok r ∧
      ∀ n ∈ inpW2.contingency_names,
        (n, some ((inpW2.details n).convergence_message,
          (inpW2.details n).convergent)) ∈
          r.contingency_compliance.convergence :=
  c2_per_contingency_convergence_rows inpW2 "t" rfl rfl

/-- C3: with a healthy base case, the SAV case is reloaded after each
contingency test, so every contingency is applied to the base-case network
state (no previously applied outage is ever present) and outages never
accumulate across contingencies. -/
theorem c3_reload_between_contingencies (inp : MainInput) (tw : String)
    (hbase : inp.baseConvergent = true) (hisl : inp.islanded_busbars = []) :
    ∃ r : MainResult, (mainRun inp tw).2 = Except.ok r ∧
      r.applied =
        (odKeys inp.contingency_names).map (fun n => (n, ([] : List String))) ∧
      ∀ p ∈ r.applied, p.2 = ([] : List String) := by
  refine ⟨_, by rw [mainRun_ok_closed inp tw hbase hisl], ?_, ?_⟩
  · rw [mainEntries, List.map_map]
    rfl
  · intro p hp
    obtain ⟨q, _, hq⟩ := List.mem_map.1 hp
    rw [← hq]

/-- Witness for C3 at a concrete two-contingency run. -/
theorem c3_reload_between_contingencies_witness :
    ∃ r : MainResult, (mainRun inpW2 "t").2 = Except.ok r ∧
      r.applied =
        (odKeys inpW2.contingency_names).map (fun n => (n, ([] : List String))) ∧
      ∀ p ∈ r.applied, p.2 = ([] : List String) :=
  c3_reload_between_contingencies inpW2 "t" rfl rfl

/-- C4: compliance is evaluated for every recorded result: the voltage
step of circuit-switching contingencies is checked against the contingency
step-change limit and that of shunt-switching (voltage-control)
contingencies against the reactor step-change limit, the base-case row of
the step-change column is set compliant, each bus/branch data set is
checked for the base case plus every contingency name, and all columns sit
with the convergence frame in the one summary handed to the export. -/
theorem c4_compliance_evaluation (inp : MainInput) (tw : String)
    (hbase : inp.baseConvergent = true) (hisl : inp.islanded_busbars = [])
    (hbc : bcName ∉ inp.contingency_names) :
    ∃ r : MainResult, (mainRun inp tw).2 = Except.ok r ∧
      r.contingency_compliance.step_change =
        busCheckCompliance inp.bus_step_ok (mainCircuitSwitching inp)
            StepLimit.cont_step_change_limit ++
          busCheckCompliance inp.bus_step_ok (mainShuntSwitching inp)
            StepLimit.reactor_step_change_limit ++ [(bcName, true)] ∧
      r.contingency_compliance.datasets =
        [dataCheckCompliance inp.bus_ok (mainAllContNames inp),
         dataCheckCompliance inp.circuit_ok (mainAllContNames inp),
         dataCheckCompliance inp.tx2_ok (mainAllContNames inp),
         dataCheckCompliance inp.tx3w_ok (mainAllContNames inp)] ∧
      (∀ n ∈ inp.contingency_names, n ∈ mainAllContNames inp) ∧
      bcName ∈ mainAllContNames inp ∧
      r.contingency_compliance.convergence = mainConvergenceFrame inp := by
  have hsub : ∀ n ∈ mainCircuitSwitching inp ++ mainShuntSwitching inp,
      n ∈ inp.contingency_names := by
    intro n hn
    have hn2 : n ∈ (mainEntries inp).map Prod.fst := by
      rcases List.mem_append.1 hn with h | h
      · obtain ⟨q, hq, hqn⟩ := List.mem_map.1 h
        exact hqn ▸ List.mem_map_of_mem Prod.fst (List.mem_of_mem_filter hq)
      · obtain ⟨q, hq, hqn⟩ := List.mem_map.1 h
        exact hqn ▸ List.mem_map_of_mem Prod.fst (List.mem_of_mem_filter hq)
    rw [mainEntries_keys] at hn2
    exact (mem_odKeys _ n).1 hn2
  refine ⟨_, by rw [mainRun_ok_closed inp tw hbase hisl], ?_, rfl, ?_, ?_, rfl⟩
  · have hfst : (busCheckCompliance inp.bus_step_ok (mainCircuitSwitching inp)
          StepLimit.cont_step_change_limit ++
        busCheckCompliance inp.bus_step_ok (mainShuntSwitching inp)
          StepLimit.reactor_step_change_limit).map Prod.fst =
        mainCircuitSwitching inp ++ mainShuntSwitching inp := by
      rw [List.map_append, busCheckCompliance, busCheckCompliance,
        List.map_map, List.map_map]
      congr 1
      · exact (List.map_congr_left fun k _ => rfl).trans (List.map_id _)
      · exact (List.map_congr_left fun k _ => rfl).trans (List.map_id _)
    have hnc : ((busCheckCompliance inp.bus_step_ok (mainCircuitSwitching inp)
          StepLimit.cont_step_change_limit ++
        busCheckCompliance inp.bus_step_ok (mainShuntSwitching inp)
          StepLimit.reactor_step_change_limit).map Prod.fst).contains bcName ≠ true := by
      rw [hfst]
      intro hc
      exact hbc (hsub bcName (List.elem_iff.1 hc))
    rw [frameSetBool, if_neg hnc]
  · intro n hn
    have hkmem : n ∈ odKeys inp.contingency_names := (mem_odKeys _ n).2 hn
    have hpmem : (n, inp.details n) ∈ mainEntries inp :=
      List.mem_map_of_mem (fun n => (n, inp.details n)) hkmem
    rw [mainAllContNames, List.mem_cons]
    refine Or.inr (List.mem_append.2 ?_)
    rcases hvc : (inp.details n).voltage_control_contingency with _ | _
    · refine Or.inl ?_
      rw [mainCircuitSwitching]
      refine List.mem_map_of_mem Prod.fst (List.mem_filter.2 ⟨hpmem, ?_⟩)
      simp [hvc]
    · refine Or.inr ?_
      rw [mainShuntSwitching]
      exact List.mem_map_of_mem Prod.fst (List.mem_filter.2 ⟨hpmem, hvc⟩)
  · exact List.mem_cons_self _ _

/-- Witness for C4 at a concrete run with one contingency of each
switching class. -/
theorem c4_compliance_evaluation_witness :
    ∃ r : MainResult, (mainRun inpW2 "t").2 = Except.ok r ∧
      r.contingency_compliance.step_change =
        busCheckCompliance inpW2.bus_step_ok (mainCircuitSwitching inpW2)
            StepLimit.cont_step_change_limit ++
          busCheckCompliance inpW2.bus_step_ok (mainShuntSwitching inpW2)
            StepLimit.reactor_step_change_limit ++ [(bcName, true)] ∧
      r.contingency_compliance.datasets =
        [dataCheckCompliance inpW2.bus_ok (mainAllContNames inpW2),
         dataCheckCompliance inpW2.circuit_ok (mainAllContNames inpW2),
         dataCheckCompliance inpW2.tx2_ok (mainAllContNames inpW2),
         dataCheckCompliance inpW2.tx3w_ok (mainAllContNames inpW2)] ∧
      (∀ n ∈ inpW2.contingency_names, n ∈ mainAllContNames inpW2) ∧
      bcName ∈ mainAllContNames inpW2 ∧
      r.contingency_compliance.convergence = mainConvergenceFrame inpW2 :=
  c4_compliance_evaluation inpW2 "t" rfl rfl (by decide)

/-- C5: the exported workbook carries one sheet per result category in the
fixed `results_data` insertion order — steady voltages, voltage steps,
busbar state, circuit status then loading, two-winding transformer status
then loading, three-winding transformer data, status and loading, fixed
shunts, switched shunts, machine loading — followed by the
convergence/compliance summary sheet. -/
theorem c5_export_sheet_order (inp : MainInput) (tw : String)
    (hbase : inp.baseConvergent = true) (hisl : inp.islanded_busbars = []) :
    ∃ r : MainResult, (mainRun inp tw).2 = Except.ok r ∧
      r.results_sheets =
        [sheet_voltage_steady, sheet_voltage_step, sheet_busbars,
         sheet_circuit_status, sheet_circuit_loading, sheet_tx2_status,
         sheet_tx2_loading, sheet_tx3, sheet_tx3_wind_status,
         sheet_tx3_wind_loading, sheet_fixed_shunts, sheet_switched_shunts,
         sheet_machine_data, sheet_convergence] := by
  exact ⟨_, by rw [mainRun_ok_closed inp tw hbase hisl], rfl⟩

/-- Witness for C5 at a concrete run. -/
theorem c5_export_sheet_order_witness :
    ∃ r : MainResult, (mainRun inpW2 "t").2 = Except.ok r ∧
      r.results_sheets =
        [sheet_voltage_steady, sheet_voltage_step, sheet_busbars,
         sheet_circuit_status, sheet_circuit_loading, sheet_tx2_status,
         sheet_tx2_loading, sheet_tx3, sheet_tx3_wind_status,
         sheet_tx3_wind_loading, sheet_fixed_shunts, sheet_switched_shunts,
         sheet_machine_data, sheet_convergence] :=
  c5_export_sheet_order inpW2 "t" rfl rfl

/-- C6: contingencies are handled strictly sequentially in the order their
names first appear in the workbook: the OrderedDict pairs exactly that key
order with the per-name details, its keys are distinct and cover the
workbook names, and the loop trace is the concatenation of one complete
setup/test/reload/record block per name in that order. -/
theorem c6_sequential_processing (inp : MainInput) (tw : String)
    (hbase : inp.baseConvergent = true) (hisl : inp.islanded_busbars = []) :
    buildContingencyDict inp =
      (odKeys inp.contingency_names).map (fun n => (n, inp.details n)) ∧
    (odKeys inp.contingency_names).Nodup ∧
    (∀ n, n ∈ odKeys inp.contingency_names ↔ n ∈ inp.contingency_names) ∧
    (mainRun inp tw).1 = ((odKeys inp.contingency_names).map contBlock).flatten := by
  refine ⟨buildContingencyDict_eq inp, odKeys_nodup _, fun n => mem_odKeys _ n, ?_⟩
  rw [mainRun_ok_closed inp tw hbase hisl]
  rw [mainEntries, List.map_map]
  rfl

/-- Witness for C6 at a concrete run. -/
theorem c6_sequential_processing_witness :
    buildContingencyDict inpW2 =
      (odKeys inpW2.contingency_names).map (fun n => (n, inpW2.details n)) ∧
    (odKeys inpW2.contingency_names).Nodup ∧
    (∀ n, n ∈ odKeys inpW2.contingency_names ↔ n ∈ inpW2.contingency_names) ∧
    (mainRun inpW2 "t").1 = ((odKeys inpW2.contingency_names).map contBlock).flatten :=
  c6_sequential_processing inpW2 "t" rfl rfl

end CP966
